import Mathlib

/-!
Verification of the Router → Planner → Dispatcher → Memory core of the
real-estate chatbot (scripts/chat.py, scripts/agents/router.py,
scripts/agents/planner.py, scripts/agents/memory.py,
scripts/agents/structured_agent.py).

Python values flowing through the pipeline originate from `json.loads`
on LLM output, so they are modelled by a `Json` inductive (JSON numbers
are restricted to integers; none of the verified paths depend on
fractional values).  External collaborators (the HTTP completion
service, the `json` library, the SQL database, the report builder and
the per-task handlers in multi-task composition) are modelled as
explicit parameters, so theorems quantify over every behaviour of the
collaborator.  Wall-clock timestamps attached to episodic messages are
omitted (real time), as no claim mentions them.
-/

namespace ChatBot

/-- Model of a Python value decoded from JSON (`json.loads`):
`None`, `bool`, `int`, `str`, `list`, `dict`. -/
inductive Json where
  | null : Json
  | bool : Bool → Json
  | num : Int → Json
  | str : String → Json
  | arr : List Json → Json
  | obj : List (String × Json) → Json

mutual
/-- Decidable equality on `Json` (needed so witnesses evaluate by `decide`). -/
def Json.decEq : (a b : Json) → Decidable (a = b)
  | Json.null, Json.null => isTrue rfl
  | Json.null, Json.bool _ => isFalse (fun h => Json.noConfusion h)
  | Json.null, Json.num _ => isFalse (fun h => Json.noConfusion h)
  | Json.null, Json.str _ => isFalse (fun h => Json.noConfusion h)
  | Json.null, Json.arr _ => isFalse (fun h => Json.noConfusion h)
  | Json.null, Json.obj _ => isFalse (fun h => Json.noConfusion h)
  | Json.bool _, Json.null => isFalse (fun h => Json.noConfusion h)
  | Json.bool a, Json.bool b =>
    match inferInstanceAs (Decidable (a = b)) with
    | isTrue h => isTrue (by rw [h])
    | isFalse h => isFalse (fun hh => h (Json.bool.inj hh))
  | Json.bool _, Json.num _ => isFalse (fun h => Json.noConfusion h)
  | Json.bool _, Json.str _ => isFalse (fun h => Json.noConfusion h)
  | Json.bool _, Json.arr _ => isFalse (fun h => Json.noConfusion h)
  | Json.bool _, Json.obj _ => isFalse (fun h => Json.noConfusion h)
  | Json.num _, Json.null => isFalse (fun h => Json.noConfusion h)
  | Json.num _, Json.bool _ => isFalse (fun h => Json.noConfusion h)
  | Json.num a, Json.num b =>
    match inferInstanceAs (Decidable (a = b)) with
    | isTrue h => isTrue (by rw [h])
    | isFalse h => isFalse (fun hh => h (Json.num.inj hh))
  | Json.num _, Json.str _ => isFalse (fun h => Json.noConfusion h)
  | Json.num _, Json.arr _ => isFalse (fun h => Json.noConfusion h)
  | Json.num _, Json.obj _ => isFalse (fun h => Json.noConfusion h)
  | Json.str _, Json.null => isFalse (fun h => Json.noConfusion h)
  | Json.str _, Json.bool _ => isFalse (fun h => Json.noConfusion h)
  | Json.str _, Json.num _ => isFalse (fun h => Json.noConfusion h)
  | Json.str a, Json.str b =>
    match inferInstanceAs (Decidable (a = b)) with
    | isTrue h => isTrue (by rw [h])
    | isFalse h => isFalse (fun hh => h (Json.str.inj hh))
  | Json.str _, Json.arr _ => isFalse (fun h => Json.noConfusion h)
  | Json.str _, Json.obj _ => isFalse (fun h => Json.noConfusion h)
  | Json.arr _, Json.null => isFalse (fun h => Json.noConfusion h)
  | Json.arr _, Json.bool _ => isFalse (fun h => Json.noConfusion h)
  | Json.arr _, Json.num _ => isFalse (fun h => Json.noConfusion h)
  | Json.arr _, Json.str _ => isFalse (fun h => Json.noConfusion h)
  | Json.arr a, Json.arr b =>
    match Json.decEqList a b with
    | isTrue h => isTrue (by rw [h])
    | isFalse h => isFalse (fun hh => h (Json.arr.inj hh))
  | Json.arr _, Json.obj _ => isFalse (fun h => Json.noConfusion h)
  | Json.obj _, Json.null => isFalse (fun h => Json.noConfusion h)
  | Json.obj _, Json.bool _ => isFalse (fun h => Json.noConfusion h)
  | Json.obj _, Json.num _ => isFalse (fun h => Json.noConfusion h)
  | Json.obj _, Json.str _ => isFalse (fun h => Json.noConfusion h)
  | Json.obj _, Json.arr _ => isFalse (fun h => Json.noConfusion h)
  | Json.obj a, Json.obj b =>
    match Json.decEqObj a b with
    | isTrue h => isTrue (by rw [h])
    | isFalse h => isFalse (fun hh => h (Json.obj.inj hh))

/-- Decidable equality on lists of `Json`. -/
def Json.decEqList : (a b : List Json) → Decidable (a = b)
  | [], [] => isTrue rfl
  | [], _ :: _ => isFalse (fun h => List.noConfusion h)
  | _ :: _, [] => isFalse (fun h => List.noConfusion h)
  | x :: xs, y :: ys =>
    match Json.decEq x y, Json.decEqList xs ys with
    | isTrue h1, isTrue h2 => isTrue (by rw [h1, h2])
    | isFalse h1, _ => isFalse (fun hh => h1 (List.head_eq_of_cons_eq hh))
    | _, isFalse h2 => isFalse (fun hh => h2 (List.tail_eq_of_cons_eq hh))

/-- Decidable equality on JSON objects (string-keyed entry lists). -/
def Json.decEqObj : (a b : List (String × Json)) → Decidable (a = b)
  | [], [] => isTrue rfl
  | [], _ :: _ => isFalse (fun h => List.noConfusion h)
  | _ :: _, [] => isFalse (fun h => List.noConfusion h)
  | (k1, v1) :: xs, (k2, v2) :: ys =>
    match inferInstanceAs (Decidable (k1 = k2)), Json.decEq v1 v2, Json.decEqObj xs ys with
    | isTrue h1, isTrue h2, isTrue h3 => isTrue (by rw [h1, h2, h3])
    | isFalse h1, _, _ =>
      isFalse (fun hh => h1 (congrArg Prod.fst (List.head_eq_of_cons_eq hh)))
    | _, isFalse h2, _ =>
      isFalse (fun hh => h2 (congrArg Prod.snd (List.head_eq_of_cons_eq hh)))
    | _, _, isFalse h3 => isFalse (fun hh => h3 (List.tail_eq_of_cons_eq hh))
end

instance : DecidableEq Json := Json.decEq

/-- A decoded JSON object (Python `dict`); `json.loads` applied to a
string whose first character is `{` yields a `dict` or fails, so the
router's parse oracle returns this shape. -/
abbrev JsonObj := List (String × Json)

/-- Python truthiness (`if value:`) of a JSON-decoded value:
`None`, `False`, `0`, `""`, `[]` and `{}` are falsy. -/
def jsonTruthy : Json → Bool
  | Json.null => false
  | Json.bool b => b
  | Json.num n => n != 0
  | Json.str s => s != ""
  | Json.arr xs => !xs.isEmpty
  | Json.obj kvs => !kvs.isEmpty

/-- Single-quote character, used by Python `repr` of strings. -/
def squote : String := String.singleton (Char.ofNat 39)

mutual
/-- Python `repr()` of a JSON-decoded value. -/
def pyRepr : Json → String
  | Json.null => "None"
  | Json.bool true => "True"
  | Json.bool false => "False"
  | Json.num n => toString n
  | Json.str s => squote ++ s ++ squote
  | Json.arr xs => "[" ++ pyReprList xs ++ "]"
  | Json.obj kvs => "\x7b" ++ pyReprObj kvs ++ "\x7d"

/-- `repr` of the comma-separated elements of a Python list. -/
def pyReprList : List Json → String
  | [] => ""
  | [x] => pyRepr x
  | x :: xs => pyRepr x ++ ", " ++ pyReprList xs

/-- `repr` of the comma-separated entries of a Python dict. -/
def pyReprObj : List (String × Json) → String
  | [] => ""
  | [(k, v)] => squote ++ k ++ squote ++ ": " ++ pyRepr v
  | (k, v) :: kvs => squote ++ k ++ squote ++ ": " ++ pyRepr v ++ ", " ++ pyReprObj kvs
end

/-- Python `str()` of a JSON-decoded value (as used in f-strings and in
`str(slots[...])`): a `str` renders bare, everything else as `repr`. -/
def pyStr : Json → String
  | Json.str s => s
  | v => pyRepr v

/-- Python `d.get(key)`: the stored value, or `None` when the key is
absent. -/
def pyGet (d : JsonObj) (k : String) : Json :=
  (List.lookup k d).getD Json.null

/-! ## Query Router (scripts/agents/router.py, class QueryRouter) -/

/-- The opening brace character searched for by `_extract_json`. -/
def lbrace : Char := Char.ofNat 123

/-- The closing brace character searched for by `_extract_json`. -/
def rbrace : Char := Char.ofNat 125

/-- `text.find(c)`: index of the first occurrence, `none` for Python -1. -/
def findFirstIdx (c : Char) (cs : List Char) : Option Nat :=
  List.findIdx? (fun x => x = c) cs

/-- `text.rfind(c)`: index of the last occurrence, `none` for Python -1. -/
def findLastIdx (c : Char) (cs : List Char) : Option Nat :=
  match List.findIdx? (fun x => x = c) cs.reverse with
  | none => none
  | some i => some (cs.length - 1 - i)

/-- The dict returned by `QueryRouter._extract_json` after
`_validate_and_clean`: it always carries the keys `in_scope`, `intents`
and `slots` (validation inserts defaults when the model omitted them). -/
structure RouterResult where
  in_scope : Json
  intents : List String
  slots : Json
deriving DecidableEq

/-- The closed intent enumeration of `_validate_and_clean`
(`allowed_intents`). -/
def allowed_intents : List String :=
  ["search_property", "estimate_renovation", "generate_report",
   "save_preference", "web_research", "general_query"]

/-- Python `intent in allowed_intents` for a decoded JSON list element:
only a string equal to one of the six names passes. -/
def to_allowed : Json → Option String
  | Json.str s => if s ∈ allowed_intents then some s else none
  | _ => none

/-- The raw intents list extracted by `_validate_and_clean` before
dedup/filtering: missing key → `['general_query']`, non-list value →
singleton wrap, list → its elements. -/
def raw_intents (o : JsonObj) : List Json :=
  match List.lookup "intents" o with
  | none => [Json.str "general_query"]
  | some (Json.arr xs) => xs
  | some j => [j]

/-- Whether a decoded JSON value is hashable in Python: `None`, `bool`,
`int` and `str` are; `list` and `dict` are not, so putting one through
a `set` raises `TypeError`. -/
def hashable : Json → Bool
  | Json.arr _ => false
  | Json.obj _ => false
  | _ => true

/-- The value computed by the `seen`-set loop of `_validate_and_clean`
on completing runs: drop duplicates, keeping the first occurrence.
(`uniquePreserveRun` below is the loop as it actually executes,
including the `TypeError` raised on unhashable entries.) -/
def uniquePreserve (seen : List Json) : List Json → List Json
  | [] => []
  | x :: xs =>
    if x ∈ seen then uniquePreserve seen xs
    else x :: uniquePreserve (x :: seen) xs

/-- The `seen`-set loop of `_validate_and_clean` as it actually
executes: `intent not in seen` hashes the element, so a `list`/`dict`
entry raises an uncaught `TypeError` (modelled as `none`); on hashable
entries the loop behaves as `uniquePreserve`. -/
def uniquePreserveRun (seen : List Json) : List Json → Option (List Json)
  | [] => some []
  | x :: xs =>
    if hashable x = false then none
    else if x ∈ seen then uniquePreserveRun seen xs
    else (uniquePreserveRun (x :: seen) xs).map (x :: ·)

/-- The result of `QueryRouter._validate_and_clean` on completing runs
(every raw intents entry hashable; see `validate_and_clean_run` for the
raising model): ensure `intents` is a list, dedup preserving order,
filter to the closed enumeration, substitute `['general_query']` when
empty, and default `slots`/`in_scope`. -/
def validate_and_clean (o : JsonObj) : RouterResult :=
  let unique := uniquePreserve [] (raw_intents o)
  let validated := unique.filterMap to_allowed
  let validated := if validated = [] then ["general_query"] else validated
  { in_scope := (List.lookup "in_scope" o).getD (Json.bool true)
    intents := validated
    slots := (List.lookup "slots" o).getD (Json.obj []) }

/-- `QueryRouter._validate_and_clean` as it actually executes: `none`
models the uncaught `TypeError` raised by the dedup loop when the raw
intents list contains a `list`/`dict` entry; when the loop completes,
the result is exactly `validate_and_clean`. -/
def validate_and_clean_run (o : JsonObj) : Option RouterResult :=
  match uniquePreserveRun [] (raw_intents o) with
  | none => none
  | some unique =>
    let validated := unique.filterMap to_allowed
    let validated := if validated = [] then ["general_query"] else validated
    some { in_scope := (List.lookup "in_scope" o).getD (Json.bool true)
           intents := validated
           slots := (List.lookup "slots" o).getD (Json.obj []) }

/-- The conservative default of `_extract_json`:
`{'in_scope': True, 'intents': ['general_query'], 'slots': {}}`. -/
def default_result : RouterResult :=
  { in_scope := Json.bool true, intents := ["general_query"], slots := Json.obj [] }

/-- The substring `text[text.find('{') : text.rfind('}')+1]` handed to
`json.loads`, or `none` when either brace is missing. -/
def candidate_json (text : String) : Option String :=
  let cs := text.toList
  match findFirstIdx lbrace cs, findLastIdx rbrace cs with
  | some s, some e => some (String.mk ((cs.drop s).take (e + 1 - s)))
  | _, _ => none

/-- The result of `QueryRouter._extract_json` on completing runs,
parameterised by the `json.loads` collaborator (`loads js = none`
models a `JSONDecodeError`; a success on a string starting with a brace
is a dict): missing braces or a decode failure yield the conservative
default, a decode success is validated.  (`extract_json_run` below is
`_extract_json` as it actually executes, with the uncaught `TypeError`
path.) -/
def extract_json (loads : String → Option JsonObj) (text : String) : RouterResult :=
  match candidate_json text with
  | none => default_result
  | some js =>
    match loads js with
    | some o => validate_and_clean o
    | none => default_result

/-- `QueryRouter._extract_json` as it actually executes: the `try`
block catches only `json.JSONDecodeError`, so the `TypeError` raised by
`_validate_and_clean` on an unhashable intents entry propagates
(`none`). -/
def extract_json_run (loads : String → Option JsonObj) (text : String) :
    Option RouterResult :=
  match candidate_json text with
  | none => some default_result
  | some js =>
    match loads js with
    | some o => validate_and_clean_run o
    | none => some default_result

/-- Behaviour of the HTTP completion collaborator for one call:
a response with a status code whose body yields the assistant text
`content` under `result["choices"][0]["message"]["content"]`, a
response with a status code whose body does not yield assistant text
(that subscript chain, or `response.json()` itself, raises), or a
transport failure raised by `requests.post`. -/
inductive LLMOutcome where
  | response : Nat → String → LLMOutcome
  | badBody : Nat → LLMOutcome
  | transportError : LLMOutcome
deriving DecidableEq

/-- Exceptions escaping `QueryRouter.route`: a transport failure, a
`raise_for_status` HTTPError, a failure extracting assistant text from
the response body, and the dedup loop's `TypeError` on an unhashable
intents entry. -/
inductive RouteErr where
  | transport : RouteErr
  | http : RouteErr
  | body : RouteErr
  | typeErr : RouteErr
deriving DecidableEq

/-- `QueryRouter._call_llm`: `requests.post` either raises (transport),
or returns a response on which `raise_for_status()` raises for a 4xx/5xx
status; otherwise the assistant text is extracted from the body, which
raises when the body does not have the expected shape. -/
def call_llm : LLMOutcome → Except RouteErr String
  | LLMOutcome.transportError => Except.error RouteErr.transport
  | LLMOutcome.response status content =>
    if 400 ≤ status ∧ status < 600 then Except.error RouteErr.http
    else Except.ok content
  | LLMOutcome.badBody status =>
    if 400 ≤ status ∧ status < 600 then Except.error RouteErr.http
    else Except.error RouteErr.body

/-- `QueryRouter.route`: call the LLM (uncaught exceptions propagate),
extract and validate JSON (an uncaught `TypeError` from the validation
step also propagates), then derive the query type from `in_scope` and
the number of validated intents.  The prompt built from the user input
only reaches the completion collaborator, whose behaviour is the
`LLMOutcome` parameter, so it does not appear in the model. -/
def route (loads : String → Option JsonObj) (outcome : LLMOutcome) :
    Except RouteErr (String × List String × Json) :=
  match call_llm outcome with
  | Except.error e => Except.error e
  | Except.ok text =>
    match extract_json_run loads text with
    | none => Except.error RouteErr.typeErr
    | some result =>
      if jsonTruthy result.in_scope = false then
        Except.ok ("out_of_scope", [], Json.obj [])
      else if result.intents.length = 1 then
        Except.ok ("simple-query", result.intents, result.slots)
      else
        Except.ok ("complex-query", result.intents, result.slots)

/-! ## Task Planner (scripts/agents/planner.py, class Planner) -/

/-- A task emitted by the planner: `{"agent": ..., "params": ...}`. -/
structure Task where
  agent : String
  params : List (String × Json)
deriving DecidableEq

/-- The `agent_params` table of `Planner._extract_relevant_params`
(dict lookup with default `[]`). -/
def agent_params (intent : String) : List String :=
  if intent = "search_property" then
    ["location", "num_rooms", "max_price", "property_size_sqft"]
  else if intent = "estimate_renovation" then ["property_size_sqft", "num_rooms"]
  else if intent = "generate_report" then []
  else if intent = "save_preference" then ["location", "num_rooms", "max_price"]
  else if intent = "web_research" then []
  else if intent = "general_query" then ["certificate_keywords"]
  else []

/-- `Planner._extract_relevant_params`: project `slots` onto the
intent's allow-list, keeping only keys that are present with a
non-`None` value. -/
def extract_relevant_params (intent : String) (slots : JsonObj) : List (String × Json) :=
  (agent_params intent).filterMap fun key =>
    match List.lookup key slots with
    | some v => if v = Json.null then none else some (key, v)
    | none => none

/-- `Planner._plan_simple`: one task from the first intent, or the
defensive `general_query` task when `intents` is empty. -/
def plan_simple (intents : List String) (slots : JsonObj) : List Task :=
  match intents with
  | [] => [{ agent := "general_query", params := [] }]
  | intent :: _ => [{ agent := intent, params := extract_relevant_params intent slots }]

/-- `Planner._plan_complex`: one task per intent in order, or the
defensive `general_query` task when `intents` is empty. -/
def plan_complex (intents : List String) (slots : JsonObj) : List Task :=
  match intents with
  | [] => [{ agent := "general_query", params := [] }]
  | _ =>
    intents.map fun intent =>
      { agent := intent, params := extract_relevant_params intent slots }

/-- `Planner.plan`: empty plan for `out_of_scope`, single task for
`simple-query`, one task per intent for `complex-query`, and the simple
fallback for any other query-type string. -/
def plan (query_type : String) (intents : List String) (slots : JsonObj) : List Task :=
  if query_type = "out_of_scope" then []
  else if query_type = "simple-query" then plan_simple intents slots
  else if query_type = "complex-query" then plan_complex intents slots
  else plan_simple intents slots

/-! ## Memory (scripts/agents/memory.py, class Memory) -/

/-- One episodic conversation turn (`datetime.now()` timestamp omitted:
wall-clock time, unobserved by every claim). -/
structure Msg where
  role : String
  content : String
deriving DecidableEq

/-- `Memory.add_message`: append one turn to the episodic list. -/
def add_message (episodic : List Msg) (role content : String) : List Msg :=
  episodic ++ [{ role := role, content := content }]

/-- `Memory.get_conversation_history`: Python `if last_n:` is falsy for
both the default `None` and `0`, and `episodic[-n:]` keeps the last
`min n length` entries. -/
def get_conversation_history (episodic : List Msg) (last_n : Option Nat) : List Msg :=
  match last_n with
  | some n => if n ≠ 0 then episodic.drop (episodic.length - n) else episodic
  | none => episodic

/-- A property row as stored by `last_search_results` (columns of the
`properties` table used by `chat.py`). -/
structure Property where
  property_id : String
  location : String
  num_rooms : Nat
  property_size_sqft : Nat
  price : Nat
deriving DecidableEq

/-- The in-process short-term store (the `self.shortterm` dict fallback
used when Redis is unreachable); chat.py only ever stores the
`last_search_results` property list in it. -/
abbrev Shortterm := List (String × List Property)

/-- Upsert into an association list, modelling both the dict assignment
of the short-term fallback and the SQL `ON CONFLICT ... DO UPDATE` of
the durable preference store. -/
def upsertAssoc {α : Type} (store : List (String × α)) (k : String) (v : α) :
    List (String × α) :=
  if (List.lookup k store).isSome then
    store.map fun kv => if kv.1 = k then (k, v) else kv
  else store ++ [(k, v)]

/-- `Memory.set_context` (in-process fallback path):
`self.shortterm[full_key] = value` with the scoped key literal. -/
def set_context (uid key : String) (value : List Property) (st : Shortterm) : Shortterm :=
  upsertAssoc st ("session:" ++ uid ++ ":" ++ key) value

/-- `Memory.get_context` (in-process fallback path):
`self.shortterm.get(full_key)`. -/
def get_context (uid key : String) (st : Shortterm) : Option (List Property) :=
  List.lookup ("session:" ++ uid ++ ":" ++ key) st

/-- The durable preference store for one user: rows of the
`user_memory` table, unique on the key. -/
abbrev Prefs := List (String × Json)

/-- `Memory.save_preference`: SQL upsert keyed on `(user_id, memory_key)`. -/
def save_preference (prefs : Prefs) (key : String) (value : Json) : Prefs :=
  upsertAssoc prefs key value

/-! ## Dispatcher and handlers (scripts/chat.py, class RealEstateChatbot) -/

/-- Python `f"{price:,}"`: decimal digits grouped in threes by commas.
Walks the reversed digit list, inserting a comma before every digit
whose position is a positive multiple of three. -/
def commaGroupRev (i : Nat) : List Char → List Char
  | [] => []
  | d :: ds =>
    if i ≠ 0 ∧ i % 3 = 0 then ',' :: d :: commaGroupRev (i + 1) ds
    else d :: commaGroupRev (i + 1) ds

/-- `f"{n:,}"` for a non-negative integer. -/
def commaFmt (n : Nat) : String :=
  String.mk (commaGroupRev 0 (toString n).toList.reverse).reverse

/-- One listing line of `RealEstateChatbot._handle_search`. -/
def propLine (p : Property) : String :=
  "- " ++ p.property_id ++ ": " ++ p.location ++ " - " ++
    toString p.num_rooms ++ " BHK, " ++ toString p.property_size_sqft ++
    " sqft - Rs." ++ commaFmt p.price ++ "\n"

/-- `RealEstateChatbot._handle_search`, parameterised by the result
list the structured-search collaborator returned for the given slots:
formats up to ten listings with an overflow count and, when the result
set is non-empty, stores the full set under `last_search_results`. -/
def handle_search (results : List Property) (slots : JsonObj) (uid : String)
    (st : Shortterm) : String × Shortterm :=
  if results.isEmpty then
    ("No properties found matching your criteria: " ++ pyStr (Json.obj slots), st)
  else
    ("Found " ++ toString results.length ++ " properties:\n\n" ++
        String.join ((results.take 10).map propLine) ++
        (if results.length > 10 then
          "\n... and " ++ toString (results.length - 10) ++ " more properties"
        else ""),
      set_context uid "last_search_results" results st)

/-- `RealEstateChatbot._handle_report`, parameterised by the report
builder collaborator (`ReportGenerator.generate_report`, returning the
PDF path): missing or empty `last_search_results` yields the
instructional message, otherwise the builder runs on at most the first
ten stored results. -/
def handle_report (gen : List Property → String) (uid : String) (st : Shortterm) :
    String :=
  match get_context uid "last_search_results" st with
  | none => "No recent property searches found. Please search for properties first."
  | some props =>
    if props.isEmpty then
      "No recent property searches found. Please search for properties first."
    else
      let props := props.take 10
      if props.isEmpty then
        "Could not generate report. Please search for properties first."
      else "Report generated successfully! Saved to: " ++ gen props

/-- `RealEstateChatbot._handle_save_preference`: each of the three
slots is written only when truthy (`if slots.get(...):`), and the same
confirmation string is returned in every case. -/
def handle_save_preference (slots : JsonObj) (prefs : Prefs) : String × Prefs :=
  let p1 :=
    if jsonTruthy (pyGet slots "max_price") then
      save_preference prefs "budget" (Json.str (pyStr (pyGet slots "max_price")))
    else prefs
  let p2 :=
    if jsonTruthy (pyGet slots "location") then
      save_preference p1 "preferred_location" (pyGet slots "location")
    else p1
  let p3 :=
    if jsonTruthy (pyGet slots "num_rooms") then
      save_preference p2 "preferred_rooms" (Json.str (pyStr (pyGet slots "num_rooms")))
    else p2
  ("Preferences saved! I'll remember them for future searches.", p3)

/-- `task['agent'].replace('_', ' ').title()`: Python `str.title`
uppercases a letter after a non-letter and lowercases the rest. -/
def titleChars (prevCased : Bool) : List Char → List Char
  | [] => []
  | c :: cs =>
    if c.isAlpha then
      (if prevCased then c.toLower else c.toUpper) :: titleChars true cs
    else c :: titleChars false cs

/-- The human-readable agent label used in complex responses. -/
def human_agent_name (agent : String) : String :=
  String.mk (titleChars false (agent.toList.map fun c => if c = '_' then ' ' else c))

/-- One labeled block of `_execute_complex_tasks`, parameterised by the
single-task executor `_execute_task` (with the user input fixed). -/
def task_block (exec : Task → String) (t : Task) : String :=
  "**" ++ human_agent_name t.agent ++ ":**\n" ++ exec t

/-- The `responses` list accumulated by the loop of
`_execute_complex_tasks`. -/
def complex_responses (exec : Task → String) (tasks : List Task) : List String :=
  tasks.foldl (fun acc t => acc ++ [task_block exec t]) []

/-- `RealEstateChatbot._execute_complex_tasks`: run the tasks in order
and join the labeled blocks with the visible separator. -/
def execute_complex_tasks (exec : Task → String) (tasks : List Task) : String :=
  "\n\n" ++ String.intercalate "\n\n---\n\n" (complex_responses exec tasks)

/-- `RealEstateChatbot.chat`, parameterised by the router's returned
triple (the route call itself may instead raise, see `route`) and by the
single-task executor: append the user turn, plan, branch on the query
type, and append the final assistant turn.  `none` models an uncaught
`IndexError` on `tasks[0]` (which `plan` in fact never allows). -/
def chat (routed : String × List String × JsonObj) (exec : Task → String)
    (episodic : List Msg) (user_input : String) : Option (String × List Msg) :=
  let ep1 := add_message episodic "user" user_input
  let tasks := plan routed.1 routed.2.1 routed.2.2
  let response? : Option String :=
    if routed.1 = "out_of_scope" then
      some "I can only help with real estate queries. Please ask about properties, prices, or renovations."
    else if routed.1 = "simple-query" then tasks.head?.map exec
    else if routed.1 = "complex-query" then some (execute_complex_tasks exec tasks)
    else
      some "I'm not sure how to help with that. Try asking about property search or renovation estimates."
  match response? with
  | none => none
  | some r => some (r, add_message ep1 "assistant" r)

/-! ## Structured search (scripts/agents/structured_agent.py) -/

/-- One conditional filter clause of `StructuredAgent._build_query`:
append the SQL fragment and its parameter when the filter is truthy. -/
def addCond (cond : Bool) (frag : String) (p : Json) (st : String × List Json) :
    String × List Json :=
  if cond then (st.1 ++ frag, st.2 ++ [p]) else st

/-- `StructuredAgent._build_query`: start from the base query and add
one clause per truthy filter, then the fixed ordering/limit clause. -/
def build_query (filters : JsonObj) : String × List Json :=
  let s0 := ("SELECT * FROM properties WHERE 1=1", ([] : List Json))
  let loc := pyGet filters "location"
  let s1 := addCond (jsonTruthy loc) " AND location ILIKE %s"
    (Json.str ("%" ++ pyStr loc ++ "%")) s0
  let s2 := addCond (jsonTruthy (pyGet filters "num_rooms")) " AND num_rooms = %s"
    (pyGet filters "num_rooms") s1
  let s3 := addCond (jsonTruthy (pyGet filters "max_price")) " AND price <= %s"
    (pyGet filters "max_price") s2
  let s4 := addCond (jsonTruthy (pyGet filters "min_price")) " AND price >= %s"
    (pyGet filters "min_price") s3
  let s5 := addCond (jsonTruthy (pyGet filters "property_size_sqft"))
    " AND property_size_sqft >= %s" (pyGet filters "property_size_sqft") s4
  (s5.1 ++ " ORDER BY price ASC LIMIT 10", s5.2)

/-! ## Contiguous-substring occurrence (to state that a clause appears
in a built SQL string) -/

/-- Whether `needle` is an initial segment of `hay`. -/
def startsWithChars : List Char → List Char → Bool
  | [], _ => true
  | _ :: _, [] => false
  | a :: as, b :: bs => a = b && startsWithChars as bs

/-- Whether `needle` occurs contiguously anywhere inside `hay`. -/
def occursIn (needle : List Char) : List Char → Bool
  | [] => needle.isEmpty
  | c :: cs => startsWithChars needle (c :: cs) || occursIn needle cs

/-! ## Lemmas about the router's dedup/validate step -/

theorem uniquePreserve_sublist (seen l : List Json) :
    (uniquePreserve seen l).Sublist l := by
  induction l generalizing seen with
  | nil => simp [uniquePreserve]
  | cons x xs ih =>
    simp only [uniquePreserve]
    split
    · exact (ih seen).trans (List.sublist_cons_self x xs)
    · exact (ih (x :: seen)).cons₂ x

theorem mem_uniquePreserve (seen l : List Json) (x : Json) :
    x ∈ uniquePreserve seen l ↔ x ∈ l ∧ x ∉ seen := by
  induction l generalizing seen with
  | nil => simp [uniquePreserve]
  | cons y ys ih =>
    simp only [uniquePreserve]
    split
    · rename_i hy
      rw [ih]
      constructor
      · rintro ⟨h1, h2⟩
        exact ⟨List.mem_cons_of_mem _ h1, h2⟩
      · rintro ⟨h1, h2⟩
        rcases List.mem_cons.mp h1 with h | h
        · exact absurd (h ▸ hy) h2
        · exact ⟨h, h2⟩
    · rename_i hy
      simp only [List.mem_cons, ih, List.mem_cons]
      constructor
      · rintro (rfl | ⟨h1, h2⟩)
        · exact ⟨Or.inl rfl, hy⟩
        · exact ⟨Or.inr h1, fun hx => h2 (Or.inr hx)⟩
      · rintro ⟨rfl | h1, h2⟩
        · exact Or.inl rfl
        · by_cases hxy : x = y
          · exact Or.inl hxy
          · exact Or.inr ⟨h1, fun hx => hx.elim hxy h2⟩

theorem nodup_uniquePreserve (seen l : List Json) :
    (uniquePreserve seen l).Nodup := by
  induction l generalizing seen with
  | nil => simp [uniquePreserve]
  | cons y ys ih =>
    simp only [uniquePreserve]
    split
    · exact ih seen
    · refine List.nodup_cons.mpr ⟨fun hmem => ?_, ih (y :: seen)⟩
      exact ((mem_uniquePreserve _ _ _).mp hmem).2 (List.mem_cons_self y seen)

theorem to_allowed_some {a : Json} {s : String} (h : to_allowed a = some s) :
    a = Json.str s ∧ s ∈ allowed_intents := by
  cases a <;> simp only [to_allowed] at h
  all_goals first
    | exact absurd h (Option.noConfusion)
    | (rename_i t
       by_cases ht : t ∈ allowed_intents
       · simp [ht] at h
         exact ⟨by rw [h], h ▸ ht⟩
       · simp [ht] at h)

theorem validate_intents_characterisation (o : JsonObj) :
    (validate_and_clean o).intents =
      (if (uniquePreserve [] (raw_intents o)).filterMap to_allowed = []
        then ["general_query"]
        else (uniquePreserve [] (raw_intents o)).filterMap to_allowed) := rfl

theorem validate_intents_nonempty (o : JsonObj) :
    (validate_and_clean o).intents ≠ [] := by
  rw [validate_intents_characterisation]
  split
  · simp
  · assumption

theorem validate_intents_nodup (o : JsonObj) :
    (validate_and_clean o).intents.Nodup := by
  rw [validate_intents_characterisation]
  split
  · simp
  · exact List.Nodup.filterMap
      (fun a a' b hb hb' => by
        rw [(to_allowed_some hb).1, (to_allowed_some hb').1])
      (nodup_uniquePreserve [] (raw_intents o))

theorem validate_intents_allowed (o : JsonObj) {s : String}
    (h : s ∈ (validate_and_clean o).intents) : s ∈ allowed_intents := by
  rw [validate_intents_characterisation] at h
  revert h
  split
  · intro h
    rcases List.mem_singleton.mp h with rfl
    decide
  · intro h
    rcases List.mem_filterMap.mp h with ⟨a, _, ha⟩
    exact (to_allowed_some ha).2

theorem extract_json_cases (loads : String → Option JsonObj) (text : String) :
    extract_json loads text = default_result ∨
      ∃ o : JsonObj, extract_json loads text = validate_and_clean o := by
  rcases hc : candidate_json text with _ | js
  · exact Or.inl (by simp [extract_json, hc])
  · rcases hl : loads js with _ | o
    · exact Or.inl (by simp [extract_json, hc, hl])
    · exact Or.inr ⟨o, by simp [extract_json, hc, hl]⟩

/-- C1: for every raw completion text (and every behaviour of the
`json.loads` collaborator), the intents in the classification result of
the extract-and-validate step are never empty, duplicate-free, and drawn
from the closed six-member enumeration; moreover the validation step
keeps the first occurrence of each valid intent: its output is an
order-preserving sublist of the allowed projection of the raw intents
containing every valid raw intent, falling back to `["general_query"]`
exactly when no raw intent is valid. -/
theorem router_intents_always_valid
    (loads : String → Option JsonObj) (text : String) (o : JsonObj) :
    ((extract_json loads text).intents ≠ [] ∧
      (extract_json loads text).intents.Nodup ∧
      ∀ s, s ∈ (extract_json loads text).intents → s ∈ allowed_intents) ∧
    (((validate_and_clean o).intents.Sublist ((raw_intents o).filterMap to_allowed) ∧
        ∀ s, s ∈ (raw_intents o).filterMap to_allowed →
          s ∈ (validate_and_clean o).intents) ∨
      ((raw_intents o).filterMap to_allowed = [] ∧
        (validate_and_clean o).intents = ["general_query"])) := by
  constructor
  · rcases extract_json_cases loads text with h | ⟨o', h⟩
    · rw [h]
      refine ⟨by decide, by decide, ?_⟩
      intro s hs
      rcases List.mem_singleton.mp hs with rfl
      decide
    · rw [h]
      exact ⟨validate_intents_nonempty o', validate_intents_nodup o',
        fun s hs => validate_intents_allowed o' hs⟩
  · by_cases hraw : (raw_intents o).filterMap to_allowed = []
    · refine Or.inr ⟨hraw, ?_⟩
      rw [validate_intents_characterisation]
      have hsub : ((uniquePreserve [] (raw_intents o)).filterMap to_allowed).Sublist
          ((raw_intents o).filterMap to_allowed) :=
        (uniquePreserve_sublist [] (raw_intents o)).filterMap to_allowed
      rw [hraw] at hsub
      rw [List.sublist_nil.mp hsub]
      simp
    · left
      have hne : (uniquePreserve [] (raw_intents o)).filterMap to_allowed ≠ [] := by
        intro hempty
        apply hraw
        rcases List.exists_mem_of_ne_nil _ hraw with ⟨s, hs⟩
        rcases List.mem_filterMap.mp hs with ⟨a, ha, haw⟩
        have : a ∈ uniquePreserve [] (raw_intents o) :=
          (mem_uniquePreserve [] (raw_intents o) a).mpr ⟨ha, by simp⟩
        have : s ∈ (uniquePreserve [] (raw_intents o)).filterMap to_allowed :=
          List.mem_filterMap.mpr ⟨a, this, haw⟩
        rw [hempty] at this
        exact absurd this (List.not_mem_nil s)
      rw [validate_intents_characterisation]
      rw [if_neg hne]
      constructor
      · exact (uniquePreserve_sublist [] (raw_intents o)).filterMap to_allowed
      · intro s hs
        rcases List.mem_filterMap.mp hs with ⟨a, ha, haw⟩
        exact List.mem_filterMap.mpr
          ⟨a, (mem_uniquePreserve [] (raw_intents o) a).mpr ⟨ha, by simp⟩, haw⟩

/-- Witness for C1 at a concrete collaborator and completion text. -/
theorem router_intents_always_valid_witness : "general_query" ∈ allowed_intents :=
  (router_intents_always_valid (fun _ => none) "x" []).1.2.2 "general_query" (by decide)

/-! ## C2: route versus collaborator failures -/

theorem uniquePreserveRun_some (seen l out : List Json)
    (h : uniquePreserveRun seen l = some out) : out = uniquePreserve seen l := by
  induction l generalizing seen out with
  | nil =>
    simp only [uniquePreserveRun, Option.some.injEq] at h
    rw [← h]
    rfl
  | cons x xs ih =>
    simp only [uniquePreserveRun] at h
    by_cases hh : hashable x = false
    · simp [hh] at h
    · rw [if_neg hh] at h
      by_cases hx : x ∈ seen
      · rw [if_pos hx] at h
        simp only [uniquePreserve, if_pos hx]
        exact ih seen out h
      · rw [if_neg hx] at h
        rcases hr : uniquePreserveRun (x :: seen) xs with _ | ys
        · rw [hr] at h
          simp at h
        · rw [hr] at h
          simp only [Option.map, Option.some.injEq] at h
          rw [← h]
          simp only [uniquePreserve, if_neg hx]
          rw [ih (x :: seen) ys hr]

theorem uniquePreserveRun_hashable (seen l : List Json)
    (h : ∀ j ∈ l, hashable j = true) :
    uniquePreserveRun seen l = some (uniquePreserve seen l) := by
  induction l generalizing seen with
  | nil => rfl
  | cons x xs ih =>
    have hx : hashable x = true := h x (List.mem_cons_self x xs)
    have hxs : ∀ j ∈ xs, hashable j = true :=
      fun j hj => h j (List.mem_cons_of_mem x hj)
    simp only [uniquePreserveRun, uniquePreserve, hx]
    by_cases hmem : x ∈ seen <;> simp [hmem, ih _ hxs]

theorem validate_and_clean_run_some (o : JsonObj) (r : RouterResult)
    (h : validate_and_clean_run o = some r) : r = validate_and_clean o := by
  rcases hr : uniquePreserveRun [] (raw_intents o) with _ | unique
  · rw [validate_and_clean_run, hr] at h
    simp at h
  · rw [validate_and_clean_run, hr] at h
    simp only [Option.some.injEq] at h
    rw [← h, validate_and_clean, uniquePreserveRun_some [] (raw_intents o) unique hr]

theorem validate_and_clean_run_hashable (o : JsonObj)
    (h : ∀ j ∈ raw_intents o, hashable j = true) :
    validate_and_clean_run o = some (validate_and_clean o) := by
  rw [validate_and_clean_run, validate_and_clean,
    uniquePreserveRun_hashable [] (raw_intents o) h]

theorem extract_json_run_some (loads : String → Option JsonObj) (text : String)
    (r : RouterResult) (h : extract_json_run loads text = some r) :
    r = extract_json loads text := by
  rcases hc : candidate_json text with _ | js
  · simp only [extract_json_run, hc, Option.some.injEq] at h
    simp [extract_json, hc, ← h]
  · rcases hl : loads js with _ | o
    · simp only [extract_json_run, hc, hl, Option.some.injEq] at h
      simp [extract_json, hc, hl, ← h]
    · simp only [extract_json_run, hc, hl] at h
      simp only [extract_json, hc, hl]
      exact validate_and_clean_run_some o r h

theorem extract_json_run_default (loads : String → Option JsonObj) (text : String)
    (h : (candidate_json text).bind loads = none) :
    extract_json_run loads text = some default_result := by
  rcases hc : candidate_json text with _ | js
  · simp [extract_json_run, hc]
  · rw [hc] at h
    simp only [Option.some_bind] at h
    simp [extract_json_run, hc, h]

/-- C2 counterexample: three collaborator behaviours on which `route`
raises instead of degrading to the default classification: a transport
failure of `requests.post`; a 200 response whose body yields no
assistant text (the `result["choices"][0]["message"]["content"]`
subscripts raise); and a 200 response with the reply text
`{"intents": [["a"]]}` — valid JSON, so `json.loads` succeeds and the
only caught exception (`json.JSONDecodeError`) does not fire, but the
dedup loop's `intent not in seen` hashes the inner list and raises an
uncaught `TypeError`.  Each refutes the claim that `route` never
raises. -/
theorem route_raises_on_collaborator_failures :
    (route (fun _ => none) LLMOutcome.transportError).isOk = false ∧
    (route (fun _ => none) (LLMOutcome.badBody 200)).isOk = false ∧
    (route
        (fun js => if js = "\x7b\"intents\": [[\"a\"]]\x7d" then
          some [("intents", Json.arr [Json.arr [Json.str "a"]])]
        else none)
        (LLMOutcome.response 200 "\x7b\"intents\": [[\"a\"]]\x7d")).isOk = false := by
  refine ⟨rfl, rfl, ?_⟩
  decide

/-- C2 amended: `route` degrades rather than raises exactly on the
failure modes the code actually catches.  When the completion
collaborator returns a successful (non-4xx/5xx) response whose body
yields assistant text: (a) if the brace-delimited substring decodes to
an object whose raw intents entries are all hashable (no nested
`list`/`dict`), `route` returns without raising; and (b) if no
brace-delimited substring decodes (malformed reply text), `route`
degrades to the default classification `in_scope=true`,
`intents=['general_query']`, `slots={}` and returns the corresponding
`simple-query` triple.  Transport errors, 4xx/5xx responses, bodies
without extractable assistant text, and decoded intents containing an
unhashable entry instead raise out of `route` (see the
counterexample). -/
theorem route_degrades_only_on_caught_malformations
    (loads : String → Option JsonObj) (text : String) :
    (∀ o : JsonObj, (candidate_json text).bind loads = some o →
      (∀ j ∈ raw_intents o, hashable j = true) →
      (route loads (LLMOutcome.response 200 text)).isOk = true) ∧
    ((candidate_json text).bind loads = none →
      route loads (LLMOutcome.response 200 text) =
        Except.ok ("simple-query", ["general_query"], Json.obj [])) := by
  have hcall : call_llm (LLMOutcome.response 200 text) = Except.ok text := by
    simp [call_llm]
  constructor
  · intro o hbind hhash
    have hc : ∃ js, candidate_json text = some js ∧ loads js = some o := by
      rcases hcj : candidate_json text with _ | js
      · rw [hcj] at hbind
        simp at hbind
      · rw [hcj] at hbind
        simp only [Option.some_bind] at hbind
        exact ⟨js, rfl, hbind⟩
    rcases hc with ⟨js, hcj, hlo⟩
    have hrun : extract_json_run loads text = some (validate_and_clean o) := by
      simp [extract_json_run, hcj, hlo, validate_and_clean_run_hashable o hhash]
    simp only [route, hcall, hrun]
    split
    · rfl
    · split <;> rfl
  · intro h
    have hrun : extract_json_run loads text = some default_result :=
      extract_json_run_default loads text h
    simp only [route, hcall, hrun]
    rfl

/-- Witness for C2's amended theorem at a concrete well-behaved
completion. -/
theorem route_degrades_only_on_caught_malformations_witness :
    (route (fun _ => some [("intents", Json.arr [Json.str "search_property"])])
        (LLMOutcome.response 200 "\x7b\x7d")).isOk = true :=
  (route_degrades_only_on_caught_malformations
      (fun _ => some [("intents", Json.arr [Json.str "search_property"])])
      "\x7b\x7d").1
    [("intents", Json.arr [Json.str "search_property"])] (by decide) (by decide)

/-! ## C3: plan length -/

theorem plan_simple_length (intents : List String) (slots : JsonObj) :
    (plan_simple intents slots).length = 1 := by
  cases intents <;> rfl

theorem plan_complex_length (intents : List String) (slots : JsonObj)
    (h : intents ≠ []) : (plan_complex intents slots).length = intents.length := by
  cases intents with
  | nil => exact absurd rfl h
  | cons i rest => simp [plan_complex]

theorem extract_json_intents_nonempty (loads : String → Option JsonObj)
    (text : String) : (extract_json loads text).intents ≠ [] := by
  rcases extract_json_cases loads text with h | ⟨o, h⟩ <;> rw [h]
  · decide
  · exact validate_intents_nonempty o

/-- C3: for every classifier output (every triple `route` can return),
`plan` returns the empty task list when the query type is
`out_of_scope`, and a task list with exactly one task per
(deduplicated, validated) intent when the query type is `simple-query`
or `complex-query`.  The slot dict handed to the planner is quantified
separately since the task count never depends on it. -/
theorem plan_length_matches_route
    (loads : String → Option JsonObj) (outcome : LLMOutcome)
    (query_type : String) (intents : List String) (slots : Json) (slotsObj : JsonObj)
    (h : route loads outcome = Except.ok (query_type, intents, slots)) :
    (query_type = "out_of_scope" → plan query_type intents slotsObj = []) ∧
    ((query_type = "simple-query" ∨ query_type = "complex-query") →
      (plan query_type intents slotsObj).length = intents.length) := by
  rcases hcall : call_llm outcome with e | text
  · simp [route, hcall] at h
  · rcases hrun : extract_json_run loads text with _ | result
    · simp [route, hcall, hrun] at h
    · have hres : result = extract_json loads text :=
        extract_json_run_some loads text result hrun
      subst hres
      simp only [route, hcall, hrun] at h
      split at h
      · simp only [Except.ok.injEq, Prod.mk.injEq] at h
        obtain ⟨rfl, rfl, rfl⟩ := h
        constructor
        · intro _
          simp [plan]
        · rintro (hq | hq) <;> exact absurd hq (by decide)
      · split at h
        · rename_i hlen
          simp only [Except.ok.injEq, Prod.mk.injEq] at h
          obtain ⟨rfl, rfl, rfl⟩ := h
          constructor
          · intro hq
            exact absurd hq (by decide)
          · intro _
            rw [show plan "simple-query" (extract_json loads text).intents slotsObj =
                plan_simple (extract_json loads text).intents slotsObj from by simp [plan]]
            rw [plan_simple_length, hlen]
        · rename_i hlen
          simp only [Except.ok.injEq, Prod.mk.injEq] at h
          obtain ⟨rfl, rfl, rfl⟩ := h
          constructor
          · intro hq
            exact absurd hq (by decide)
          · intro _
            rw [show plan "complex-query" (extract_json loads text).intents slotsObj =
                plan_complex (extract_json loads text).intents slotsObj from by simp [plan]]
            rw [plan_complex_length _ _ (extract_json_intents_nonempty loads text)]

/-- Witness for C3 at a concrete classifier run. -/
theorem plan_length_matches_route_witness :
    (plan "simple-query" ["general_query"] []).length =
      (["general_query"] : List String).length :=
  (plan_length_matches_route (fun _ => none) (LLMOutcome.response 200 "x")
      "simple-query" ["general_query"] (Json.obj []) [] (by rfl)).2 (Or.inl rfl)

/-! ## C4: per-intent parameter allow-list -/

/-- C4: every key in the params of the task the planner emits for an
intent belongs to that intent's fixed allow-list (whose six rows are
restated explicitly), and no params value is `None`: absent and null
slots are dropped. -/
theorem task_params_in_allow_list
    (intent : String) (slots : JsonObj) (k : String) (v : Json)
    (h : (k, v) ∈ extract_relevant_params intent slots) :
    (k ∈ agent_params intent ∧ v ≠ Json.null) ∧
    (agent_params "search_property" =
        ["location", "num_rooms", "max_price", "property_size_sqft"] ∧
      agent_params "estimate_renovation" = ["property_size_sqft", "num_rooms"] ∧
      agent_params "generate_report" = [] ∧
      agent_params "save_preference" = ["location", "num_rooms", "max_price"] ∧
      agent_params "web_research" = [] ∧
      agent_params "general_query" = ["certificate_keywords"]) := by
  refine ⟨?_, by decide, by decide, by decide, by decide, by decide, by decide⟩
  rcases List.mem_filterMap.mp h with ⟨key, hkey, hf⟩
  rcases hl : List.lookup key slots with _ | w
  · rw [hl] at hf
    exact absurd hf (by simp)
  · rw [hl] at hf
    by_cases hn : w = Json.null
    · simp [hn] at hf
    · simp only [if_neg hn] at hf
      obtain ⟨rfl, rfl⟩ := Prod.mk.inj (Option.some.inj hf)
      exact ⟨hkey, hn⟩

/-- Witness for C4 at a concrete intent and slot dict. -/
theorem task_params_in_allow_list_witness :
    "location" ∈ agent_params "search_property" ∧ Json.str "Mumbai" ≠ Json.null :=
  (task_params_in_allow_list "search_property" [("location", Json.str "Mumbai")]
      "location" (Json.str "Mumbai") (by decide)).1

/-! ## C5: complex-query response rendering -/

theorem complex_responses_eq_map (exec : Task → String) (tasks : List Task) :
    complex_responses exec tasks = tasks.map (task_block exec) := by
  have haux : ∀ (ts : List Task) (acc : List String),
      ts.foldl (fun acc t => acc ++ [task_block exec t]) acc =
        acc ++ ts.map (task_block exec) := by
    intro ts
    induction ts with
    | nil => intro acc; simp
    | cons t ts ih => intro acc; simp [ih]
  simpa [complex_responses] using haux tasks []

/-- C5: for every complex query with `n` planned tasks, the combined
response is the `n` labeled blocks joined by the visible `---`
separator, where the `i`-th block is labeled with the `i`-th task's
intent rendered human-readably (underscores to spaces, title-cased) and
its body is the `i`-th task's handler output — execution order is
preserved in the rendered output. -/
theorem complex_response_structure (exec : Task → String) (tasks : List Task) :
    execute_complex_tasks exec tasks =
      "\n\n" ++ String.intercalate "\n\n---\n\n"
        (List.ofFn fun i : Fin tasks.length =>
          "**" ++ human_agent_name (tasks.get i).agent ++ ":**\n" ++ exec (tasks.get i)) ∧
    (complex_responses exec tasks).length = tasks.length := by
  constructor
  · rw [execute_complex_tasks, complex_responses_eq_map, ← List.ofFn_getElem_eq_map]
    rfl
  · rw [complex_responses_eq_map]
    exact List.length_map tasks (task_block exec)

/-! ## Lookup lemmas for the upsert stores -/

theorem lookup_replace_self {α : Type} (store : List (String × α)) (k : String) (v : α)
    (h : (List.lookup k store).isSome = true) :
    List.lookup k (store.map fun kv => if kv.1 = k then (k, v) else kv) = some v := by
  induction store with
  | nil => simp at h
  | cons kv rest ih =>
    rcases kv with ⟨k1, v1⟩
    by_cases hk : k1 = k
    · subst hk
      simp [List.lookup_cons]
    · have hbeq : (k == k1) = false := beq_false_of_ne fun hh => hk hh.symm
      simp only [List.lookup_cons, hbeq] at h
      simp only [List.map_cons, if_neg hk, List.lookup_cons, hbeq]
      exact ih h

theorem lookup_replace_other {α : Type} (store : List (String × α)) (k k2 : String)
    (v : α) (hne : k2 ≠ k) :
    List.lookup k2 (store.map fun kv => if kv.1 = k then (k, v) else kv) =
      List.lookup k2 store := by
  induction store with
  | nil => simp
  | cons kv rest ih =>
    rcases kv with ⟨k1, v1⟩
    by_cases hk : k1 = k
    · subst hk
      simp [List.lookup_cons, beq_false_of_ne hne, ih]
    · simp only [List.map_cons, if_neg hk, List.lookup_cons]
      cases hbeq : k2 == k1 <;> simp [ih]

theorem lookup_append_single_self {α : Type} (store : List (String × α)) (k : String)
    (v : α) (h : List.lookup k store = none) :
    List.lookup k (store ++ [(k, v)]) = some v := by
  induction store with
  | nil => simp [List.lookup_cons]
  | cons kv rest ih =>
    rcases kv with ⟨k1, v1⟩
    rw [List.lookup_cons] at h
    cases hbeq : k == k1
    · rw [hbeq] at h
      simp only [List.cons_append, List.lookup_cons, hbeq]
      exact ih h
    · rw [hbeq] at h
      exact absurd h (by simp)

theorem lookup_append_single_other {α : Type} (store : List (String × α))
    (k k2 : String) (v : α) (hne : k2 ≠ k) :
    List.lookup k2 (store ++ [(k, v)]) = List.lookup k2 store := by
  induction store with
  | nil => simp [List.lookup_cons, beq_false_of_ne hne]
  | cons kv rest ih =>
    rcases kv with ⟨k1, v1⟩
    simp only [List.cons_append, List.lookup_cons]
    cases hbeq : k2 == k1 <;> simp [ih]

theorem lookup_upsertAssoc_self {α : Type} (store : List (String × α)) (k : String)
    (v : α) : List.lookup k (upsertAssoc store k v) = some v := by
  unfold upsertAssoc
  split
  · exact lookup_replace_self store k v (by assumption)
  · rename_i h
    exact lookup_append_single_self store k v (Option.not_isSome_iff_eq_none.mp h)

theorem lookup_upsertAssoc_other {α : Type} (store : List (String × α))
    (k k2 : String) (v : α) (hne : k2 ≠ k) :
    List.lookup k2 (upsertAssoc store k v) = List.lookup k2 store := by
  unfold upsertAssoc
  split
  · exact lookup_replace_other store k k2 v hne
  · exact lookup_append_single_other store k k2 v hne

/-! ## C6: generate_report requires a prior search -/

theorem get_context_set_context_self (uid key : String) (value : List Property)
    (st : Shortterm) :
    get_context uid key (set_context uid key value st) = some value :=
  lookup_upsertAssoc_self st ("session:" ++ uid ++ ":" ++ key) value

/-- C6: with no stored `last_search_results` (key absent or stored
empty), the report handler returns the instructional "search first"
message and never invokes the report builder (its result does not
depend on the builder at all); after a `search_property` whose
collaborator returned a non-empty result list has stored those results,
the report handler succeeds using at most the first ten stored
results. -/
theorem report_requires_prior_search
    (gen gen' : List Property → String) (uid : String) (st : Shortterm)
    (results : List Property) (slots : JsonObj)
    (hres : results ≠ [])
    (hmem : get_context uid "last_search_results" st = none ∨
      get_context uid "last_search_results" st = some []) :
    (handle_report gen uid st =
        "No recent property searches found. Please search for properties first." ∧
      handle_report gen uid st = handle_report gen' uid st) ∧
    handle_report gen uid (handle_search results slots uid st).2 =
      "Report generated successfully! Saved to: " ++ gen (results.take 10) := by
  constructor
  · rcases hmem with hmem | hmem <;>
      simp [handle_report, hmem]
  · have hne : results.isEmpty = false := by
      cases results
      · exact absurd rfl hres
      · rfl
    have hsnd : (handle_search results slots uid st).2 =
        set_context uid "last_search_results" results st := by
      simp [handle_search, hne]
    rw [hsnd, handle_report, get_context_set_context_self]
    simp only [hne]
    have htake : (results.take 10).isEmpty = false := by
      cases results
      · exact absurd rfl hres
      · rfl
    simp [htake]

/-- Witness for C6 at a concrete memory state and search result. -/
theorem report_requires_prior_search_witness :
    (handle_report (fun _ => "report.pdf") "u" [] =
        "No recent property searches found. Please search for properties first." ∧
      handle_report (fun _ => "report.pdf") "u" [] =
        handle_report (fun _ => "other.pdf") "u" []) ∧
    handle_report (fun _ => "report.pdf") "u"
        (handle_search [⟨"P1", "Mumbai", 2, 900, 4500000⟩] [] "u" []).2 =
      "Report generated successfully! Saved to: " ++ "report.pdf" :=
  report_requires_prior_search (fun _ => "report.pdf") (fun _ => "other.pdf") "u" []
    [⟨"P1", "Mumbai", 2, 900, 4500000⟩] [] (by decide) (Or.inl rfl)

/-! ## C7: filter clauses of the structured-search query builder -/

theorem startsWithChars_self (n : List Char) : startsWithChars n n = true := by
  induction n with
  | nil => rfl
  | cons c cs ih => simp [startsWithChars, ih]

theorem startsWithChars_append (n l t : List Char)
    (h : startsWithChars n l = true) : startsWithChars n (l ++ t) = true := by
  induction n generalizing l with
  | nil => rfl
  | cons a as ih =>
    cases l with
    | nil => simp [startsWithChars] at h
    | cons b bs =>
      simp only [startsWithChars, Bool.and_eq_true, decide_eq_true_eq] at h
      simp only [List.cons_append, startsWithChars, Bool.and_eq_true, decide_eq_true_eq]
      exact ⟨h.1, ih bs h.2⟩

theorem occursIn_nil_needle (t : List Char) : occursIn [] t = true := by
  cases t <;> rfl

theorem occursIn_self (n : List Char) : occursIn n n = true := by
  cases n with
  | nil => rfl
  | cons c cs => simp [occursIn, startsWithChars_self]

theorem occursIn_append_right (n h t : List Char)
    (hocc : occursIn n h = true) : occursIn n (h ++ t) = true := by
  induction h with
  | nil =>
    simp only [occursIn, List.isEmpty_iff] at hocc
    subst hocc
    exact occursIn_nil_needle t
  | cons c cs ih =>
    simp only [occursIn, Bool.or_eq_true] at hocc
    simp only [List.cons_append, occursIn, Bool.or_eq_true]
    rcases hocc with h1 | h2
    · exact Or.inl (by simpa using startsWithChars_append n (c :: cs) t h1)
    · exact Or.inr (ih h2)

theorem occursIn_append_left (n t h : List Char)
    (hocc : occursIn n t = true) : occursIn n (h ++ t) = true := by
  induction h with
  | nil => exact hocc
  | cons c cs ih =>
    simp only [List.cons_append, occursIn, Bool.or_eq_true]
    exact Or.inr ih

theorem addCond_preserves (cond : Bool) (frag : String) (p : Json)
    (st : String × List Json) (n : List Char)
    (h : occursIn n st.1.data = true) :
    occursIn n (addCond cond frag p st).1.data = true := by
  unfold addCond
  split
  · simp only [String.data_append]
    exact occursIn_append_right _ _ _ h
  · exact h

theorem addCond_introduces (frag : String) (p : Json) (st : String × List Json) :
    occursIn frag.data (addCond true frag p st).1.data = true := by
  simp only [addCond, if_pos, String.data_append]
  exact occursIn_append_left _ _ _ (occursIn_self frag.data)

/-- C7 counterexample: the filter key `num_rooms` is present in the
mapping (with the non-null value `0`), yet the built query contains no
`num_rooms` condition — a present falsy filter value is silently
ignored because `_build_query` tests `filters.get(key)` for truthiness,
so the claim that every present filter key contributes its condition is
false. -/
theorem build_query_ignores_present_falsy_filter :
    (List.lookup "num_rooms" [("num_rooms", Json.num 0)] = some (Json.num 0) ∧
      Json.num 0 ≠ Json.null) ∧
    occursIn " AND num_rooms = %s".data
      (build_query [("num_rooms", Json.num 0)]).1.data = false := by
  constructor
  · exact ⟨rfl, by decide⟩
  · decide

/-- C7 amended: every filter key that is present with a truthy value
(non-null, non-zero, non-empty) contributes its corresponding condition
to the built query; a present key whose value is falsy (`None`, `0`,
`""`) is ignored, as the counterexample shows. -/
theorem build_query_truthy_filters_contribute (filters : JsonObj) :
    (jsonTruthy (pyGet filters "location") = true →
      occursIn " AND location ILIKE %s".data (build_query filters).1.data = true) ∧
    (jsonTruthy (pyGet filters "num_rooms") = true →
      occursIn " AND num_rooms = %s".data (build_query filters).1.data = true) ∧
    (jsonTruthy (pyGet filters "max_price") = true →
      occursIn " AND price <= %s".data (build_query filters).1.data = true) ∧
    (jsonTruthy (pyGet filters "min_price") = true →
      occursIn " AND price >= %s".data (build_query filters).1.data = true) ∧
    (jsonTruthy (pyGet filters "property_size_sqft") = true →
      occursIn " AND property_size_sqft >= %s".data (build_query filters).1.data = true) := by
  refine ⟨fun ht => ?_, fun ht => ?_, fun ht => ?_, fun ht => ?_, fun ht => ?_⟩ <;>
    (simp only [build_query]
     rw [ht]
     simp only [String.data_append]
     apply occursIn_append_right)
  · apply addCond_preserves
    apply addCond_preserves
    apply addCond_preserves
    apply addCond_preserves
    exact addCond_introduces _ _ _
  · apply addCond_preserves
    apply addCond_preserves
    apply addCond_preserves
    exact addCond_introduces _ _ _
  · apply addCond_preserves
    apply addCond_preserves
    exact addCond_introduces _ _ _
  · apply addCond_preserves
    exact addCond_introduces _ _ _
  · exact addCond_introduces _ _ _

/-- Witness for C7's amended theorem at a fully truthy filter map. -/
theorem build_query_truthy_filters_contribute_witness :
    occursIn " AND location ILIKE %s".data
      (build_query [("location", Json.str "Mumbai"), ("num_rooms", Json.num 2),
        ("max_price", Json.num 5000000), ("min_price", Json.num 1000000),
        ("property_size_sqft", Json.num 900)]).1.data = true :=
  (build_query_truthy_filters_contribute
      [("location", Json.str "Mumbai"), ("num_rooms", Json.num 2),
        ("max_price", Json.num 5000000), ("min_price", Json.num 1000000),
        ("property_size_sqft", Json.num 900)]).1 (by decide)

/-! ## C8: save_preference writes -/

theorem lookup_condSave_self (c : Bool) (prefs : Prefs) (k : String) (v : Json) :
    List.lookup k (if c then save_preference prefs k v else prefs) =
      if c then some v else List.lookup k prefs := by
  cases c
  · rfl
  · simp only [if_pos]
    exact lookup_upsertAssoc_self prefs k v

theorem lookup_condSave_other (c : Bool) (prefs : Prefs) (k k2 : String) (v : Json)
    (hne : k2 ≠ k) :
    List.lookup k2 (if c then save_preference prefs k v else prefs) =
      List.lookup k2 prefs := by
  cases c
  · rfl
  · simp only [if_pos]
    exact lookup_upsertAssoc_other prefs k k2 v hne

/-- C8 counterexample: the slot `max_price` is present and non-null
(value `0`), yet nothing is written to durable storage — the handler
tests `slots.get('max_price')` for truthiness, so the claim that
exactly the present-and-non-null subset is written is false. -/
theorem save_preference_skips_present_nonnull_zero :
    (List.lookup "max_price" [("max_price", Json.num 0)] = some (Json.num 0) ∧
      Json.num 0 ≠ Json.null) ∧
    List.lookup "budget"
      (handle_save_preference [("max_price", Json.num 0)] []).2 = none :=
  ⟨⟨rfl, by decide⟩, by decide⟩

/-- C8 amended: the handler writes to durable storage exactly the
present-and-truthy subset of
`{max_price → budget, location → preferred_location,
num_rooms → preferred_rooms}` (a slot whose value is falsy — `None`,
`0`, `""` — is skipped, see the counterexample), touches no other key,
and returns the same fixed confirmation string regardless of how many
of the three fields were written (including zero). -/
theorem save_preference_writes_truthy_subset (slots : JsonObj) (prefs : Prefs) :
    (handle_save_preference slots prefs).1 =
      "Preferences saved! I'll remember them for future searches." ∧
    (∀ kk, kk ≠ "budget" → kk ≠ "preferred_location" → kk ≠ "preferred_rooms" →
      List.lookup kk (handle_save_preference slots prefs).2 = List.lookup kk prefs) ∧
    (jsonTruthy (pyGet slots "max_price") = true →
      List.lookup "budget" (handle_save_preference slots prefs).2 =
        some (Json.str (pyStr (pyGet slots "max_price")))) ∧
    (jsonTruthy (pyGet slots "max_price") = false →
      List.lookup "budget" (handle_save_preference slots prefs).2 =
        List.lookup "budget" prefs) ∧
    (jsonTruthy (pyGet slots "location") = true →
      List.lookup "preferred_location" (handle_save_preference slots prefs).2 =
        some (pyGet slots "location")) ∧
    (jsonTruthy (pyGet slots "location") = false →
      List.lookup "preferred_location" (handle_save_preference slots prefs).2 =
        List.lookup "preferred_location" prefs) ∧
    (jsonTruthy (pyGet slots "num_rooms") = true →
      List.lookup "preferred_rooms" (handle_save_preference slots prefs).2 =
        some (Json.str (pyStr (pyGet slots "num_rooms")))) ∧
    (jsonTruthy (pyGet slots "num_rooms") = false →
      List.lookup "preferred_rooms" (handle_save_preference slots prefs).2 =
        List.lookup "preferred_rooms" prefs) := by
  have hb : List.lookup "budget" (handle_save_preference slots prefs).2 =
      (if jsonTruthy (pyGet slots "max_price") then
        some (Json.str (pyStr (pyGet slots "max_price")))
      else List.lookup "budget" prefs) := by
    simp only [handle_save_preference]
    rw [lookup_condSave_other _ _ _ _ _ (by decide),
      lookup_condSave_other _ _ _ _ _ (by decide), lookup_condSave_self]
  have hl : List.lookup "preferred_location" (handle_save_preference slots prefs).2 =
      (if jsonTruthy (pyGet slots "location") then some (pyGet slots "location")
      else List.lookup "preferred_location" prefs) := by
    simp only [handle_save_preference]
    rw [lookup_condSave_other _ _ _ _ _ (by decide), lookup_condSave_self,
      lookup_condSave_other _ _ _ _ _ (by decide)]
  have hr : List.lookup "preferred_rooms" (handle_save_preference slots prefs).2 =
      (if jsonTruthy (pyGet slots "num_rooms") then
        some (Json.str (pyStr (pyGet slots "num_rooms")))
      else List.lookup "preferred_rooms" prefs) := by
    simp only [handle_save_preference]
    rw [lookup_condSave_self, lookup_condSave_other _ _ _ _ _ (by decide),
      lookup_condSave_other _ _ _ _ _ (by decide)]
  refine ⟨rfl, ?_, fun ht => by rw [hb, ht]; simp, fun hf => by rw [hb, hf]; simp,
    fun ht => by rw [hl, ht]; simp, fun hf => by rw [hl, hf]; simp,
    fun ht => by rw [hr, ht]; simp, fun hf => by rw [hr, hf]; simp⟩
  intro kk h1 h2 h3
  simp only [handle_save_preference]
  rw [lookup_condSave_other _ _ _ _ _ h3, lookup_condSave_other _ _ _ _ _ h2,
    lookup_condSave_other _ _ _ _ _ h1]

/-- Witness for C8's amended theorem at a concrete slot dict. -/
theorem save_preference_writes_truthy_subset_witness :
    List.lookup "budget"
        (handle_save_preference [("max_price", Json.num 5000000)] []).2 =
      some (Json.str (pyStr (pyGet [("max_price", Json.num 5000000)] "max_price"))) ∧
    List.lookup "other"
        (handle_save_preference [("max_price", Json.num 5000000)] []).2 =
      List.lookup "other" ([] : Prefs) :=
  ⟨(save_preference_writes_truthy_subset [("max_price", Json.num 5000000)] []).2.2.1
      (by decide),
    (save_preference_writes_truthy_subset [("max_price", Json.num 5000000)] []).2.1
      "other" (by decide) (by decide) (by decide)⟩

/-! ## C9: episodic frame effect of one chat turn -/

/-- C9: in every branch of the dispatcher (out_of_scope refusal,
simple query, complex query, unknown query type) the turn completes and
appends exactly two entries to episodic memory — the user turn before
task execution and the final assistant turn after — and leaves every
other episodic entry untouched. -/
theorem chat_appends_exactly_two_turns
    (routed : String × List String × JsonObj) (exec : Task → String)
    (episodic : List Msg) (user_input : String) :
    ∃ response, chat routed exec episodic user_input =
      some (response, episodic ++
        [{ role := "user", content := user_input },
          { role := "assistant", content := response }]) := by
  rcases routed with ⟨qt, intents, slots⟩
  by_cases h1 : qt = "out_of_scope"
  · subst h1
    exact ⟨"I can only help with real estate queries. Please ask about properties, prices, or renovations.",
      by simp [chat, add_message]⟩
  · by_cases h2 : qt = "simple-query"
    · subst h2
      have hhead : (plan "simple-query" intents slots).head?.isSome = true := by
        rw [show plan "simple-query" intents slots = plan_simple intents slots
          from by simp [plan]]
        cases intents <;> rfl
      rcases hh : (plan "simple-query" intents slots).head? with _ | t
      · rw [hh] at hhead
        simp at hhead
      · exact ⟨exec t, by simp [chat, hh, add_message]⟩
    · by_cases h3 : qt = "complex-query"
      · subst h3
        exact ⟨execute_complex_tasks exec (plan "complex-query" intents slots),
          by simp [chat, add_message]⟩
      · exact
          ⟨"I'm not sure how to help with that. Try asking about property search or renovation estimates.",
            by simp [chat, h1, h2, h3, add_message]⟩

/-! ## C10: reading the conversation history -/

/-- C10 counterexample: with one stored turn, `last_n = 0` returns the
entire history (one turn), not zero turns — Python `if last_n:` treats
`0` like the omitted default — so the claim that `n = 0` yields zero
turns (and that the entire history is returned only when `n` is
omitted) is false. -/
theorem history_zero_returns_everything :
    get_conversation_history [{ role := "user", content := "hi" }] (some 0) =
      [{ role := "user", content := "hi" }] ∧
    ([{ role := "user", content := "hi" }] : List Msg) ≠ [] :=
  ⟨rfl, by decide⟩

/-- C10 amended: for every positive `n`, reading with `last_n = n`
returns the most recent `min n length` turns in chronological order (a
suffix of the episodic log); passing `n = 0` behaves exactly like
omitting `last_n` and returns the entire history. -/
theorem history_last_n_suffix (episodic : List Msg) (n : Nat) (h : n ≠ 0) :
    (get_conversation_history episodic (some n)).length = min n episodic.length ∧
    List.take (episodic.length - n) episodic ++
        get_conversation_history episodic (some n) = episodic ∧
    get_conversation_history episodic none = episodic ∧
    get_conversation_history episodic (some 0) = episodic := by
  refine ⟨?_, ?_, rfl, rfl⟩
  · simp only [get_conversation_history, if_pos h, List.length_drop]
    omega
  · simp only [get_conversation_history, if_pos h, List.take_append_drop]

/-- Witness for C10's amended theorem at a concrete two-turn log. -/
theorem history_last_n_suffix_witness :
    (get_conversation_history
        [{ role := "user", content := "a" }, { role := "assistant", content := "b" }]
        (some 1)).length =
      min 1 ([{ role := "user", content := "a" },
        { role := "assistant", content := "b" }] : List Msg).length :=
  (history_last_n_suffix
      [{ role := "user", content := "a" }, { role := "assistant", content := "b" }]
      1 (by decide)).1

end ChatBot
